import Mathlib

/-
Verification of the DCE-MRI pharmacokinetic modelling pipeline
(src/dce/process.py) against its specification.

Shallow embedding conventions:
* numpy floating-point arrays are modelled over ℚ; a 1-d array is a
  `List ℚ`, a 2-d array (voxels × time, or voxels × parameters) is a
  `List (List ℚ)` resp. a list of tuples;
* the flattened 3-d mask (`roi1vec`) is a `List Bool`; `np.reshape` between
  the 3-d volumes and their flat vectors is an index-preserving bijection,
  so all volume-shaped arrays are modelled in their flattened form;
* numpy boolean-mask assignment `A[mask] = vals` into a zero array is
  `scatterD`, boolean-mask selection `A[mask]` is `gather`;
* the external C++ fitting engine `PyPk` is modelled as an opaque record of
  possibly-failing calls (`Except String`), matching the Python exception
  behaviour of the collaborator;
* `np.around` is round-half-to-even, `int()` truncates toward zero, and
  `/` on scalars is Python-3 true division.
-/

/-- Indicator of a decidable proposition as a rational factor: the embedding
of numpy boolean arithmetic such as `value * (value < 2.0)`. -/
def ind (b : Prop) [Decidable b] : ℚ := if b then 1 else 0

/-- numpy `np.around`: round half to even (banker's rounding). -/
def roundHalfEven (q : ℚ) : ℤ :=
  if q - ⌊q⌋ < 1/2 then ⌊q⌋
  else if 1/2 < q - ⌊q⌋ then ⌊q⌋ + 1
  else if ⌊q⌋ % 2 = 0 then ⌊q⌋ else ⌊q⌋ + 1

/-- Python `int()`: truncation toward zero. -/
def pyInt (q : ℚ) : ℤ := if 0 ≤ q then ⌊q⌋ else -⌊-q⌋

/-- Boolean-mask assignment into a zero-filled array:
`A = full(z); A[mask] = vals` (source lines 182-207). The result has one
entry per mask position; `True` positions consume successive values of
`vals`, `False` positions keep the fill value `z`. -/
def scatterD {α : Type} (z : α) : List Bool → List α → List α
  | [], _ => []
  | m :: ms, vs =>
      (if m then vs.headD z else z) :: scatterD z ms (if m then vs.tail else vs)

/-- Boolean-mask selection `A[mask]` (source lines 152-154). -/
def gather {α : Type} : List Bool → List α → List α
  | [], _ => []
  | _ :: _, [] => []
  | m :: ms, v :: vs => if m then v :: gather ms vs else gather ms vs

/-- Mean of a list, `np.mean` over one voxel's leading time points. -/
def listMean (l : List ℚ) : ℚ := l.sum / (l.length : ℚ)

/-- Linear interpolation at fractional rank h into a sorted list: the core
of numpy's default (linear-interpolation) percentile. -/
def interpAt (s : List ℚ) (h : ℚ) : ℚ :=
  if (⌊h⌋).toNat + 1 < s.length then
    s.getD (⌊h⌋).toNat 0 + (h - ((⌊h⌋).toNat : ℚ)) *
      (s.getD ((⌊h⌋).toNat + 1) 0 - s.getD (⌊h⌋).toNat 0)
  else s.getD (s.length - 1) 0

/-- numpy `np.percentile(a, q)` with the default linear interpolation:
sort all entries, take rank `q/100 * (n-1)`, interpolate linearly. -/
def percentile (l : List ℚ) (q : ℚ) : ℚ :=
  if l.length = 0 then 0
  else interpAt (List.insertionSort (· ≤ ·) l) (q / 100 * ((l.length : ℚ) - 1))

/-- Upper "clamp" with strict comparisons, source lines 183 and 186:
`v * (v < 2.0) + 2 * (v > 2.0)`. -/
def clampGT (v : ℚ) : ℚ := v * ind (v < 2) + 2 * ind (2 < v)

/-- Upper clamp with `>=` on the upper branch, source line 192:
`v * (v < 2.0) + 2 * (v >= 2.0)`. -/
def clampGE (v : ℚ) : ℚ := v * ind (v < 2) + 2 * ind (2 ≤ v)

/-- Negative zeroing, source lines 187 and 191: `v * (v > 0)`. -/
def zeroNeg (v : ℚ) : ℚ := v * ind (0 < v)

/-- Denominator of the baseline normalisation, source line 157:
`baseline + 0.001`. -/
def normDenom (b : ℚ) : ℚ := b + 1/1000

/-- Source lines 182-183: `Ktrans1 = zeros; Ktrans1[roi1v] = col0 * (col0 <
2.0) + 2 * (col0 > 2.0)`, with `params` the raw N×4 parameter matrix rows
(Ktrans, ve, offset, vp). -/
def KtransFlat (mask : List Bool) (params : List (ℚ × ℚ × ℚ × ℚ)) : List ℚ :=
  scatterD 0 mask (params.map (fun r => clampGT r.1))

/-- Source lines 185-187: `ve1[roi1v] = clamped col1; ve1 *= (ve1 > 0)`. -/
def veFlat (mask : List Bool) (params : List (ℚ × ℚ × ℚ × ℚ)) : List ℚ :=
  (scatterD 0 mask (params.map (fun r => clampGT r.2.1))).map zeroNeg

/-- Source line 189: `kep1p = Ktrans1 / (ve1 + 0.001)`, elementwise over the
full flat volume. In this exact embedding the divisor is at least 1/1000
(see lemma veFlat entries are nonnegative), so the NaN/Inf sanitisation of
source line 190 has nothing to map and is the identity here. -/
def kep1pFlat (mask : List Bool) (params : List (ℚ × ℚ × ℚ × ℚ)) : List ℚ :=
  List.zipWith (fun kt ve => kt / (ve + 1/1000)) (KtransFlat mask params) (veFlat mask params)

/-- Source lines 190-192: NaN/Inf to 0 (identity over ℚ, see `kep1pFlat`),
negative zeroing, then the `>=`-clamp at 2.0. -/
def kepFlat (mask : List Bool) (params : List (ℚ × ℚ × ℚ × ℚ)) : List ℚ :=
  ((kep1pFlat mask params).map zeroNeg).map clampGE

/-- Source line 218: the Ktrans outlier threshold
`p = np.percentile(Ktrans1vol, self.thresh1val)`, taken over the full
reconstructed (flattened) volume. -/
def pKtrans (mask : List Bool) (params : List (ℚ × ℚ × ℚ × ℚ)) (thresh : ℚ) : ℚ :=
  percentile (KtransFlat mask params) thresh

/-- Source line 220: the kep outlier threshold over the full kep volume. -/
def pKep (mask : List Bool) (params : List (ℚ × ℚ × ℚ × ℚ)) (thresh : ℚ) : ℚ :=
  percentile (kepFlat mask params) thresh

/-- Source lines 219 and 221: `A[A > p] = p`, elementwise. -/
def threshAt (p v : ℚ) : ℚ := if p < v then p else v

/-- The six volumes written by `PkModellingProcess.finished`. The residual
is also reconstructed by the source (lines 206-207) but never written. -/
structure FinishedVols where
  ktrans : List ℚ
  ve : List ℚ
  kep : List ℚ
  offset : List ℚ
  vp : List ℚ
  model_curves : List (List ℚ)

/-- Source lines 169-221, the successful branch of
`PkModellingProcess.finished`: reconstruct the six output volumes from the
worker payload. `mask` is `self.roi1vec`, `params` the raw N×4 parameter
matrix, `fcurve` the N×T fitted-curve matrix, `baseline` the N-vector of
masked baselines, `T` the number of time points (`self.shape[-1]`) and
`thresh` the `ve-thresh` percentile. -/
def PkModellingProcess.finished (mask : List Bool) (params : List (ℚ × ℚ × ℚ × ℚ))
    (fcurve : List (List ℚ)) (baseline : List ℚ) (T : ℕ) (thresh : ℚ) : FinishedVols :=
  { ktrans := (KtransFlat mask params).map (threshAt (pKtrans mask params thresh))
    ve := veFlat mask params
    kep := (kepFlat mask params).map (threshAt (pKep mask params thresh))
    offset := scatterD 0 mask (params.map (fun r => r.2.2.1))
    vp := scatterD 0 mask (params.map (fun r => r.2.2.2))
    model_curves :=
      scatterD (List.replicate T 0) mask
        (List.zipWith (fun row b => row.map (fun c => (c + 1) * b)) fcurve baseline) }

/-- One of the six output volumes handed to `ivm.add_data`. -/
inductive OutVol : Type where
  | param (v : List ℚ)
  | curves (v : List (List ℚ))

/-- Source lines 108-109: the configured suffix is turned into `"_" ++ s`
when non-empty and left as-is (empty) otherwise. -/
def suffixStr (s : String) : String := if s ≠ "" then "_" ++ s else s

/-- Source lines 223-228: the six `ivm.add_data` calls, each as
(volume, name, explicitly-passed make_current argument). Only the ktrans
call passes `make_current=True`; the other five omit the argument. -/
def addDataCalls (suffix : String) (F : FinishedVols) :
    List (OutVol × String × Option Bool) :=
  [ (OutVol.param F.ktrans, "ktrans" ++ suffix, some true),
    (OutVol.param F.ve, "ve" ++ suffix, none),
    (OutVol.param F.kep, "kep" ++ suffix, none),
    (OutVol.param F.offset, "offset" ++ suffix, none),
    (OutVol.param F.vp, "vp" ++ suffix, none),
    (OutVol.curves F.model_curves, "model_curves" ++ suffix, none) ]

/-- Source line 137: `baseline_tpts = int(1 + InjT / DelT)`. -/
def baselineTpts (injt delt : ℚ) : ℕ := (pyInt (1 + injt / delt)).toNat

/-- Source line 139 in flattened form: per-voxel mean over the first
`baseline_tpts` time points. -/
def computeBaseline (injt delt : ℚ) (img1vec : List (List ℚ)) : List ℚ :=
  img1vec.map (fun s => listMean (s.take (baselineTpts injt delt)))

/-- The inputs `PkModellingProcess.run` reads from options and the data
store. `roiMissing` models the "named ROI requested but absent" branch,
`mainLoaded` models `self.ivm.main is None`, `shape` is `img1.shape`,
`img1vec` the flattened main data, `t10vec` the flattened T10 map and
`roi1vec` the flattened boolean mask. -/
structure RunInput where
  roiMissing : Bool
  mainLoaded : Bool
  shape : List ℕ
  img1vec : List (List ℚ)
  t10vec : List ℚ
  roi1vec : List Bool
  injt : ℚ
  delt : ℚ
  suffix : String

/-- The data handed to the background worker by `self.start(1, args)`. -/
structure DispatchArgs where
  img1sub : List (List ℚ)
  t101sub : List ℚ
  baseline : List ℚ
  roi1vec : List Bool

/-- Source lines 98-161, `PkModellingProcess.run`: validate the
configuration, compute the baseline, select and normalise the masked
voxels, and dispatch the worker. An `Except.ok` result models reaching
`self.start(1, args)` (worker dispatch); `Except.error` models a
synchronously raised `QpException`. Note there is no emptiness check on the
mask here. -/
def PkModellingProcess.run (inp : RunInput) : Except String DispatchArgs :=
  if inp.roiMissing then Except.error "Specified ROI not found"
  else if !inp.mainLoaded then Except.error "No data loaded"
  else if inp.shape.length ≠ 4 then Except.error "Data must be 4D for DCE PK modelling"
  else
    Except.ok
      { img1sub :=
          List.zipWith (fun row b => row.map (fun v => v / normDenom b - 1))
            (gather inp.roi1vec inp.img1vec)
            (gather inp.roi1vec (computeBaseline inp.injt inp.delt inp.img1vec))
        t101sub := gather inp.roi1vec inp.t10vec
        baseline := gather inp.roi1vec (computeBaseline inp.injt inp.delt inp.img1vec)
        roi1vec := inp.roi1vec }

/-- Source line 58: `size_step = max(1, np.around(N / 5))`. -/
def sizeStep (n : ℕ) : ℤ := max 1 (roundHalfEven ((n : ℚ) / 5))

/-- Source line 60: `steps1 = np.around(size_tot / size_step)`. -/
def stepsCount (n : ℕ) : ℤ := roundHalfEven ((n : ℚ) / ((sizeStep n : ℤ) : ℚ))

/-- The external C++ fitting engine `PyPk`, modelled as an opaque
collaborator. `rinit` and `run` may raise (`Except.error`); `run` takes the
index of the call (modelling the engine's internal cursor state) and the
chunk size, and returns the log text. The three getters return the raw fit
outputs. -/
structure PyPkEngine where
  rinit : Except String String
  run : ℕ → ℕ → Except String String
  get_residual : List ℚ
  get_fitted_curve : List (List ℚ)
  get_parameters : List (ℚ × ℚ × ℚ × ℚ)

/-- The success payload of a worker: `(res1, fcurve1, params2, log)`. -/
structure PkResult where
  res1 : List ℚ
  fcurve1 : List (List ℚ)
  params2 : List (ℚ × ℚ × ℚ × ℚ)
  log : String

/-- The body of `_run_pk` inside its `try` block (source lines 22-82):
fail on empty selection, run `rinit`, then call `run` once per step of the
chunk loop, accumulating the log; finally collect the outputs. -/
def pkWorkerBody (eng : PyPkEngine) (img1sub : List (List ℚ)) :
    Except String PkResult :=
  if img1sub.length = 0 then Except.error "Pk Modelling - no unmasked data found!"
  else do
    let log0 ← eng.rinit
    let log ← (List.range (stepsCount img1sub.length).toNat).foldlM
      (fun acc ii => do
        let s ← eng.run ii (sizeStep img1sub.length).toNat
        pure (acc ++ s)) log0
    pure ⟨eng.get_residual, eng.get_fitted_curve, eng.get_parameters, log⟩

/-- Source `_run_pk` (lines 18-84): the whole body runs inside
`try: ... except: return worker_id, False, sys.exc_info()[1]`, so the
worker always returns a triple and never propagates an exception. -/
def run_pk (worker_id : ℕ) (eng : PyPkEngine) (img1sub : List (List ℚ)) :
    ℕ × Bool × (PkResult ⊕ String) :=
  match pkWorkerBody eng img1sub with
  | Except.ok p => (worker_id, true, Sum.inl p)
  | Except.error e => (worker_id, false, Sum.inr e)

/-- A trivial always-succeeding engine, used only to instantiate concrete
scenarios. -/
def stubEngine : PyPkEngine :=
  { rinit := Except.ok ""
    run := fun _ _ => Except.ok ""
    get_residual := []
    get_fitted_curve := []
    get_parameters := [] }

/-! ### Helper lemmas -/

theorem scatterD_length {α : Type} (z : α) (ms : List Bool) (vs : List α) :
    (scatterD z ms vs).length = ms.length := by
  induction ms generalizing vs with
  | nil => rfl
  | cons m ms ih => simp [scatterD, ih]

theorem getD_of_lt {α : Type} (l : List α) (i : ℕ) (h : i < l.length) (d e : α) :
    l.getD i d = l.getD i e := by
  induction l generalizing i with
  | nil => simp at h
  | cons a l ih =>
    cases i with
    | zero => simp
    | succ i =>
      simp only [List.getD_cons_succ]
      exact ih i (by simpa using h) 

theorem scatterD_getD_false {α : Type} (z : α) (ms : List Bool) (vs : List α) (i : ℕ)
    (h : ms.getD i false = false) : (scatterD z ms vs).getD i z = z := by
  induction ms generalizing vs i with
  | nil => simp [scatterD]
  | cons m ms ih =>
    cases i with
    | zero =>
      simp only [List.getD_cons_zero] at h
      simp [scatterD, h]
    | succ i =>
      simp only [List.getD_cons_succ] at h
      simp only [scatterD, List.getD_cons_succ]
      exact ih _ i h

theorem map_getD {α β : Type} (f : α → β) (l : List α) (i : ℕ) (z : α) :
    (l.map f).getD i (f z) = f (l.getD i z) := by
  induction l generalizing i with
  | nil => simp
  | cons a l ih =>
    cases i with
    | zero => simp
    | succ i => simpa using ih i

theorem zipWith_getD {α β γ : Type} (f : α → β → γ) (as : List α) (bs : List β)
    (h : as.length = bs.length) (i : ℕ) (a0 : α) (b0 : β) :
    (List.zipWith f as bs).getD i (f a0 b0) = f (as.getD i a0) (bs.getD i b0) := by
  induction as generalizing bs i with
  | nil =>
    cases bs with
    | nil => simp
    | cons b bs => simp at h
  | cons a as ih =>
    cases bs with
    | nil => simp at h
    | cons b bs =>
      cases i with
      | zero => simp
      | succ i =>
        simp only [List.zipWith_cons_cons, List.getD_cons_succ]
        exact ih bs (by simpa using h) i

theorem getD_mem_of_lt {α : Type} (l : List α) (i : ℕ) (d : α) (h : i < l.length) :
    l.getD i d ∈ l := by
  induction l generalizing i with
  | nil => simp at h
  | cons a l ih =>
    cases i with
    | zero => simp
    | succ i =>
      simp only [List.getD_cons_succ]
      exact List.mem_cons_of_mem _ (ih i (by simpa using h))

theorem gather_scatterD {α : Type} (z : α) (ms : List Bool) (vs : List α)
    (h : vs.length = ms.count true) : gather ms (scatterD z ms vs) = vs := by
  induction ms generalizing vs with
  | nil =>
    simp only [List.count_nil] at h
    simp [List.eq_nil_of_length_eq_zero h, gather]
  | cons m ms ih =>
    cases m with
    | false =>
      rw [List.count_cons_of_ne (by simp)] at h
      simpa [scatterD, gather] using ih vs h
    | true =>
      rw [List.count_cons_self] at h
      cases vs with
      | nil =>
        simp only [List.length_nil] at h
        omega
      | cons v vs =>
        simp only [List.length_cons] at h
        simp [scatterD, gather, ih vs (by omega)]

theorem gather_of_all_false {α : Type} (ms : List Bool) (vs : List α)
    (h : ∀ b ∈ ms, b = false) : gather ms vs = [] := by
  induction ms generalizing vs with
  | nil => cases vs <;> rfl
  | cons m ms ih =>
    have hm : m = false := h m (List.mem_cons_self m ms)
    cases vs with
    | nil => rfl
    | cons v vs =>
      simp only [gather, hm]
      exact (if_neg (by simp)).trans (ih vs (fun b hb => h b (List.mem_cons_of_mem m hb)))

theorem zeroNeg_eq_max (v : ℚ) : zeroNeg v = max 0 v := by
  unfold zeroNeg ind
  rcases lt_or_le 0 v with h | h
  · rw [if_pos h, mul_one, max_eq_right h.le]
  · rw [if_neg (not_lt.mpr h), mul_zero, max_eq_left h]

theorem clampGE_of_nonneg (v : ℚ) (h : 0 ≤ v) : clampGE v = min 2 v := by
  unfold clampGE ind
  rcases lt_or_le v 2 with h2 | h2
  · rw [if_pos h2, if_neg (not_le.mpr h2), mul_one, mul_zero, add_zero,
      min_eq_right h2.le]
  · rw [if_neg (not_lt.mpr h2), if_pos h2, mul_zero, mul_one, zero_add,
      min_eq_left h2]

theorem clampGE_zeroNeg (v : ℚ) : clampGE (zeroNeg v) = min 2 (max 0 v) := by
  rw [zeroNeg_eq_max, clampGE_of_nonneg _ (le_max_left 0 v)]

theorem clampGT_eq (v : ℚ) :
    clampGT v = if v < 2 then v else if 2 < v then 2 else 0 := by
  unfold clampGT ind
  split_ifs <;> first | linarith | ring

theorem zeroNeg_nonneg (v : ℚ) : 0 ≤ zeroNeg v := by
  rw [zeroNeg_eq_max]; exact le_max_left 0 v

theorem zeroNeg_zero : zeroNeg 0 = 0 := by simp [zeroNeg, ind]

theorem clampGE_zero : clampGE 0 = 0 := by
  rw [clampGE_of_nonneg 0 le_rfl]; norm_num

theorem interpAt_nonneg (s : List ℚ) (h : ℚ) (hh : 0 ≤ h)
    (hs : ∀ x ∈ s, 0 ≤ x) : 0 ≤ interpAt s h := by
  unfold interpAt
  split_ifs with hk
  · have hkl : (⌊h⌋).toNat < s.length := Nat.lt_of_succ_lt hk
    have ha : 0 ≤ s.getD (⌊h⌋).toNat 0 := hs _ (getD_mem_of_lt s _ 0 hkl)
    have hb : 0 ≤ s.getD ((⌊h⌋).toNat + 1) 0 := hs _ (getD_mem_of_lt s _ 0 hk)
    have hcast : ((⌊h⌋).toNat : ℚ) = ((⌊h⌋ : ℤ) : ℚ) := by
      exact_mod_cast Int.toNat_of_nonneg (Int.floor_nonneg.mpr hh)
    have hf0 : 0 ≤ h - ((⌊h⌋).toNat : ℚ) := by
      rw [hcast]
      have := Int.floor_le h
      linarith
    have hf1 : h - ((⌊h⌋).toNat : ℚ) ≤ 1 := by
      rw [hcast]
      have := Int.lt_floor_add_one h
      push_cast at this ⊢
      linarith
    nlinarith
  · rcases Nat.eq_zero_or_pos s.length with h0 | h0
    · rw [List.eq_nil_of_length_eq_zero h0]
      simp
    · exact hs _ (getD_mem_of_lt s _ 0 (by omega))

theorem percentile_nonneg (l : List ℚ) (q : ℚ) (hq : 0 ≤ q)
    (hl : ∀ x ∈ l, 0 ≤ x) : 0 ≤ percentile l q := by
  unfold percentile
  split_ifs with h0
  · exact le_rfl
  · apply interpAt_nonneg
    · apply mul_nonneg (by positivity)
      have : (1 : ℚ) ≤ (l.length : ℚ) := by
        exact_mod_cast Nat.one_le_iff_ne_zero.mpr h0
      linarith
    · intro x hx
      exact hl x ((List.perm_insertionSort (· ≤ ·) l).mem_iff.mp hx)

theorem kepFlat_mem_nonneg (mask : List Bool) (params : List (ℚ × ℚ × ℚ × ℚ)) :
    ∀ x ∈ kepFlat mask params, 0 ≤ x := by
  intro x hx
  unfold kepFlat at hx
  rcases List.mem_map.mp hx with ⟨y, hy, hyx⟩
  rcases List.mem_map.mp hy with ⟨w, _, hwy⟩
  rw [← hyx, ← hwy, clampGE_zeroNeg]
  exact le_min (by norm_num) (le_max_left 0 w)

/-! ### Claim theorems -/

/-- C2 counterexample: a raw Ktrans value exactly equal to 2.0 at a masked
voxel reconstructs to 0, not to 2.0 as the claim states, because
`v * (v < 2.0) + 2 * (v > 2.0)` leaves both indicator factors zero at
v = 2.0. -/
theorem C2_cex :
    KtransFlat [true] [(2, 0, 0, 0)] = [0] ∧ (0 : ℚ) ≠ 2 := by
  constructor
  · norm_num [KtransFlat, scatterD, clampGT, ind]
  · norm_num

/-- C2 (amended): at each masked voxel the reconstructed Ktrans value
equals the raw column-0 value when it is strictly below 2.0, equals 2.0
when it is strictly above 2.0, and equals 0 when it is exactly 2.0; there
is no lower clamp. Stated through `gather`, which reads the reconstructed
flat volume back at exactly the masked positions, in mask order. -/
theorem C2_amended (mask : List Bool) (params : List (ℚ × ℚ × ℚ × ℚ))
    (h : params.length = mask.count true) :
    gather mask (KtransFlat mask params) =
      params.map (fun r => if r.1 < 2 then r.1 else if 2 < r.1 then 2 else 0) := by
  unfold KtransFlat
  rw [gather_scatterD _ _ _ (by simpa using h)]
  simp only [clampGT_eq]

/-- C2 witness: a concrete one-voxel run of the amended statement, with the
length hypothesis discharged at the input. -/
theorem C2_witness :
    [((3 : ℚ), (0 : ℚ), (0 : ℚ), (0 : ℚ))].length = [true, false].count true ∧
    gather [true, false] (KtransFlat [true, false] [(3, 0, 0, 0)]) = [2] := by
  constructor
  · decide
  · have h := C2_amended [true, false] [(3, 0, 0, 0)] (by decide)
    norm_num at h
    exact h

/-- C4: with N = 13 voxels the dispatcher computes chunk size
max(1, round(13/5)) = 3 and performs round(13/3) = 4 sequential `run`
calls (the chunk loop in `pkWorkerBody` iterates `(stepsCount N).toNat`
times), so the calls consume only 3 × 4 = 12 < 13 voxels: the thirteenth
voxel is never consumed, contradicting the claim and the engine contract
that `run` must be called until all N voxels are consumed. -/
theorem C4_chunks_drop_voxels :
    sizeStep 13 = 3 ∧ stepsCount 13 = 4 ∧ (stepsCount 13).toNat = 4 ∧
    sizeStep 13 * stepsCount 13 = 12 ∧ sizeStep 13 * stepsCount 13 < 13 := by
  have hf : ⌊(13 : ℚ) / 5⌋ = 2 := by
    rw [Int.floor_eq_iff] <;> norm_num
  have h1 : sizeStep 13 = 3 := by
    rw [sizeStep, roundHalfEven]
    push_cast
    rw [hf]
    norm_num
  have hg : ⌊(13 : ℚ) / 3⌋ = 4 := by
    rw [Int.floor_eq_iff] <;> norm_num
  have h2 : stepsCount 13 = 4 := by
    rw [stepsCount, h1, roundHalfEven]
    push_cast
    rw [hg]
    norm_num
  refine ⟨h1, h2, by rw [h2]; rfl, by rw [h1, h2]; norm_num, by rw [h1, h2]; norm_num⟩

/-- C7 counterexample: the claim demands a nonzero denominator for every
possible baseline value including negative ones, but a baseline of exactly
-0.001 makes the normalisation denominator baseline + 0.001 exactly
zero. -/
theorem C7_cex : normDenom (-(1 / 1000)) = 0 := by
  norm_num [normDenom]

/-- C7 (amended): the normalisation denominator baseline + 0.001 is nonzero
for every baseline value other than exactly -0.001; in particular it is
nonzero for every nonnegative baseline. -/
theorem C7_amended (b : ℚ) (h : b ≠ -(1 / 1000)) : normDenom b ≠ 0 := by
  unfold normDenom
  intro h0
  exact h (by linarith)

/-- C7 witness: the amended statement at the concrete baseline 0. -/
theorem C7_witness : (0 : ℚ) ≠ -(1 / 1000) ∧ normDenom 0 ≠ 0 :=
  ⟨by norm_num, C7_amended 0 (by norm_num)⟩

/-- C8: the entire worker body of `_run_pk` runs inside a bare
try/except, so for every engine behaviour the worker returns a triple
tagged with its worker id — either (id, True, payload) on success or
(id, False, e) carrying the original error e raised inside the body — and
never propagates an exception (in the embedding, `run_pk` is a total
function into that sum). -/
theorem C8_worker_catches (id : ℕ) (eng : PyPkEngine) (img1sub : List (List ℚ)) :
    (run_pk id eng img1sub).1 = id ∧
    ((∃ p, pkWorkerBody eng img1sub = Except.ok p ∧
        run_pk id eng img1sub = (id, true, Sum.inl p)) ∨
     (∃ e, pkWorkerBody eng img1sub = Except.error e ∧
        run_pk id eng img1sub = (id, false, Sum.inr e))) := by
  cases h : pkWorkerBody eng img1sub with
  | ok p => exact ⟨by simp [run_pk, h], Or.inl ⟨p, rfl, by simp [run_pk, h]⟩⟩
  | error e => exact ⟨by simp [run_pk, h], Or.inr ⟨e, rfl, by simp [run_pk, h]⟩⟩

/-- C10: on success exactly six volumes are written to the data store,
named ktrans, ve, kep, offset, vp and model_curves, each name extended by
an underscore and the configured suffix when that is non-empty and left
unchanged when it is empty, and only the ktrans call passes
make_current=True (the other five calls omit the argument). -/
theorem C10_output_names (s : String) (mask : List Bool)
    (params : List (ℚ × ℚ × ℚ × ℚ)) (fcurve : List (List ℚ)) (baseline : List ℚ)
    (T : ℕ) (thresh : ℚ) :
    (addDataCalls (suffixStr s)
        (PkModellingProcess.finished mask params fcurve baseline T thresh)).length = 6 ∧
    (addDataCalls (suffixStr s)
        (PkModellingProcess.finished mask params fcurve baseline T thresh)).map
        (fun c => c.2.1) =
      ["ktrans" ++ suffixStr s, "ve" ++ suffixStr s, "kep" ++ suffixStr s,
       "offset" ++ suffixStr s, "vp" ++ suffixStr s, "model_curves" ++ suffixStr s] ∧
    (addDataCalls (suffixStr s)
        (PkModellingProcess.finished mask params fcurve baseline T thresh)).map
        (fun c => c.2.2) =
      [some true, none, none, none, none, none] ∧
    suffixStr s = if s = "" then "" else "_" ++ s := by
  refine ⟨rfl, rfl, rfl, ?_⟩
  unfold suffixStr
  by_cases h : s = "" <;> simp [h]

theorem map_getD_of_lt {α β : Type} (f : α → β) (l : List α) (i : ℕ)
    (h : i < l.length) (d : β) (z : α) :
    (l.map f).getD i d = f (l.getD i z) := by
  rw [getD_of_lt (l.map f) i (by simpa using h) d (f z)]
  exact map_getD f l i z

theorem zipWith_getD_of_lt {α β γ : Type} (f : α → β → γ) (as : List α) (bs : List β)
    (h : as.length = bs.length) (i : ℕ) (hi : i < as.length) (d : γ)
    (a0 : α) (b0 : β) :
    (List.zipWith f as bs).getD i d = f (as.getD i a0) (bs.getD i b0) := by
  rw [getD_of_lt (List.zipWith f as bs) i
    (by rw [List.length_zipWith]; omega) d (f a0 b0)]
  exact zipWith_getD f as bs h i a0 b0

theorem scatterD_getD_false_of_lt {α : Type} (z : α) (ms : List Bool) (vs : List α)
    (i : ℕ) (hi : i < ms.length) (h : ms.getD i false = false) (d : α) :
    (scatterD z ms vs).getD i d = z := by
  rw [getD_of_lt (scatterD z ms vs) i (by simpa [scatterD_length] using hi) d z]
  exact scatterD_getD_false z ms vs i h

theorem KtransFlat_length (mask : List Bool) (params : List (ℚ × ℚ × ℚ × ℚ)) :
    (KtransFlat mask params).length = mask.length := by
  unfold KtransFlat
  rw [scatterD_length]

theorem veFlat_length (mask : List Bool) (params : List (ℚ × ℚ × ℚ × ℚ)) :
    (veFlat mask params).length = mask.length := by
  unfold veFlat
  rw [List.length_map, scatterD_length]

theorem kep1pFlat_length (mask : List Bool) (params : List (ℚ × ℚ × ℚ × ℚ)) :
    (kep1pFlat mask params).length = mask.length := by
  unfold kep1pFlat
  rw [List.length_zipWith, KtransFlat_length, veFlat_length, min_self]

theorem kepFlat_length (mask : List Bool) (params : List (ℚ × ℚ × ℚ × ℚ)) :
    (kepFlat mask params).length = mask.length := by
  unfold kepFlat
  rw [List.length_map, List.length_map, kep1pFlat_length]

/-- C1 counterexample: with an all-false mask and an otherwise valid
configuration, `PkModellingProcess.run` raises nothing: it reaches worker
dispatch, returning dispatch arguments whose voxel list is empty, so the
pipeline does not fail synchronously before worker dispatch as the claim
states. -/
theorem C1_cex :
    PkModellingProcess.run
        { roiMissing := false, mainLoaded := true, shape := [2, 1, 1, 2],
          img1vec := [[1, 2], [3, 4]], t10vec := [1, 1],
          roi1vec := [false, false], injt := 1, delt := 1, suffix := "" } =
      Except.ok
        { img1sub := [], t101sub := [], baseline := [],
          roi1vec := [false, false] } := rfl

/-- C1 (amended): for every run whose mask has no True entries and whose
configuration passes the synchronous validations, `PkModellingProcess.run`
dispatches a worker with an empty voxel list, and it is that worker which
detects the empty selection: it returns the empty-selection error
"no unmasked data found" as a tagged worker-failure value, not as a
synchronous exception raised before dispatch. -/
theorem C1_amended (inp : RunInput) (eng : PyPkEngine) (id : ℕ)
    (h1 : inp.roiMissing = false) (h2 : inp.mainLoaded = true)
    (h3 : inp.shape.length = 4) (h4 : ∀ b ∈ inp.roi1vec, b = false) :
    ∃ d : DispatchArgs, PkModellingProcess.run inp = Except.ok d ∧
      d.img1sub = [] ∧
      run_pk id eng d.img1sub =
        (id, false, Sum.inr "Pk Modelling - no unmasked data found!") := by
  have hg : gather inp.roi1vec inp.img1vec = ([] : List (List ℚ)) :=
    gather_of_all_false _ _ h4
  refine ⟨{ img1sub := [],
            t101sub := gather inp.roi1vec inp.t10vec,
            baseline := gather inp.roi1vec
              (computeBaseline inp.injt inp.delt inp.img1vec),
            roi1vec := inp.roi1vec }, ?_, rfl, rfl⟩
  unfold PkModellingProcess.run
  rw [h1, h2, hg]
  simp [h3]

/-- C1 witness: the amended statement at a concrete all-false-mask input
and the stub engine, with every hypothesis discharged there. -/
theorem C1_witness :
    ∃ d : DispatchArgs,
      PkModellingProcess.run
          { roiMissing := false, mainLoaded := true, shape := [2, 1, 1, 2],
            img1vec := [[5, 6], [7, 8]], t10vec := [1, 1],
            roi1vec := [false, false], injt := 1, delt := 1, suffix := "" } =
        Except.ok d ∧
      d.img1sub = [] ∧
      run_pk 0 stubEngine d.img1sub =
        (0, false, Sum.inr "Pk Modelling - no unmasked data found!") :=
  C1_amended _ stubEngine 0 rfl rfl rfl (by decide)

/-- C5: at every masked voxel the reconstructed kep value equals
min(2, max(0, Ktrans / (ve + 0.001))) computed from the already-clamped
reconstructed Ktrans and ve values; the divisor ve + 0.001 is strictly
positive there (so the quotient is finite and the NaN/Inf sanitisation step
is vacuous), negatives are zeroed and the upper clamp at 2.0 uses `>=`. -/
theorem C5_kep_formula (mask : List Bool) (params : List (ℚ × ℚ × ℚ × ℚ)) (i : ℕ)
    (hi : i < mask.length) (hm : mask.getD i false = true) :
    0 < (veFlat mask params).getD i 0 + 1 / 1000 ∧
    (kepFlat mask params).getD i 0 =
      min 2 (max 0 ((KtransFlat mask params).getD i 0 /
        ((veFlat mask params).getD i 0 + 1 / 1000))) := by
  have hveI : (veFlat mask params).getD i 0 =
      zeroNeg ((scatterD 0 mask (params.map (fun r => clampGT r.2.1))).getD i 0) := by
    unfold veFlat
    exact map_getD_of_lt zeroNeg _ i (by rw [scatterD_length]; exact hi) 0 0
  have hve0 : 0 ≤ (veFlat mask params).getD i 0 := by
    rw [hveI]
    exact zeroNeg_nonneg _
  refine ⟨by linarith, ?_⟩
  have h1 : (kep1pFlat mask params).getD i 0 =
      (KtransFlat mask params).getD i 0 /
        ((veFlat mask params).getD i 0 + 1 / 1000) := by
    unfold kep1pFlat
    exact zipWith_getD_of_lt _ _ _ (by rw [KtransFlat_length, veFlat_length]) i
      (by rw [KtransFlat_length]; exact hi) 0 0 0
  have h2 : (kepFlat mask params).getD i 0 =
      clampGE (zeroNeg ((kep1pFlat mask params).getD i 0)) := by
    unfold kepFlat
    rw [map_getD_of_lt clampGE _ i
      (by rw [List.length_map, kep1pFlat_length]; exact hi) 0 0]
    rw [map_getD_of_lt zeroNeg _ i (by rw [kep1pFlat_length]; exact hi) 0 0]
  rw [h2, h1, clampGE_zeroNeg]

/-- C5 witness: the kep formula at a concrete one-voxel input, with both
hypotheses discharged there. -/
theorem C5_witness :
    0 < (veFlat [true] [(1, 1, 0, 0)]).getD 0 0 + 1 / 1000 ∧
    (kepFlat [true] [(1, 1, 0, 0)]).getD 0 0 =
      min 2 (max 0 ((KtransFlat [true] [(1, 1, 0, 0)]).getD 0 0 /
        ((veFlat [true] [(1, 1, 0, 0)]).getD 0 0 + 1 / 1000))) :=
  C5_kep_formula [true] [(1, 1, 0, 0)] 0 (by simp) rfl

/-- C6: the baseline window is exactly the first
K = 1 + floor(InjectionTime / SamplingInterval) time points: over valid
timings (positive sampling interval, nonnegative injection time, series at
least K long) `baseline_tpts` equals 1 + floor(InjT/DelT), the per-voxel
baseline is the mean of the K-point window (which really contains K
points), and two volumes that agree on those first K points at every voxel
produce identical baselines regardless of later time points. -/
theorem C6_baseline_window (injt delt : ℚ) (hd : 0 < delt) (hi : 0 ≤ injt)
    (imgA imgB : List (List ℚ))
    (hK : ∀ s ∈ imgA, baselineTpts injt delt ≤ s.length)
    (hagree : List.Forall₂
      (fun s t => s.take (baselineTpts injt delt) = t.take (baselineTpts injt delt))
      imgA imgB) :
    (baselineTpts injt delt : ℤ) = 1 + ⌊injt / delt⌋ ∧
    computeBaseline injt delt imgA =
      imgA.map (fun s => listMean (s.take (baselineTpts injt delt))) ∧
    (∀ s ∈ imgA, (s.take (baselineTpts injt delt)).length = baselineTpts injt delt) ∧
    computeBaseline injt delt imgA = computeBaseline injt delt imgB := by
  have hx : 0 ≤ injt / delt := div_nonneg hi hd.le
  have hfx : 0 ≤ ⌊injt / delt⌋ := Int.floor_nonneg.mpr hx
  refine ⟨?_, rfl, ?_, ?_⟩
  · unfold baselineTpts pyInt
    rw [if_pos (by linarith), add_comm (1 : ℚ), Int.floor_add_one,
      Int.toNat_of_nonneg (by omega)]
    omega
  · intro s hs
    rw [List.length_take]
    exact min_eq_left (hK s hs)
  · clear hK
    induction hagree with
    | nil => rfl
    | cons hab htl ih =>
      simp only [computeBaseline, List.map_cons] at ih ⊢
      rw [hab]
      exact congrArg _ ih

/-- C6 witness: InjectionTime 2, SamplingInterval 1 give K = 3; two
one-voxel volumes agreeing on the first three samples and differing at the
fourth have equal baselines. -/
theorem C6_witness :
    (baselineTpts 2 1 : ℤ) = 1 + ⌊(2 : ℚ) / 1⌋ ∧
    computeBaseline 2 1 [[1, 2, 3, 10]] =
      [[(1 : ℚ), 2, 3, 10]].map (fun s => listMean (s.take (baselineTpts 2 1))) ∧
    (∀ s ∈ [[(1 : ℚ), 2, 3, 10]],
      (s.take (baselineTpts 2 1)).length = baselineTpts 2 1) ∧
    computeBaseline 2 1 [[1, 2, 3, 10]] = computeBaseline 2 1 [[1, 2, 3, 99]] := by
  have hb : baselineTpts 2 1 = 3 := by
    unfold baselineTpts pyInt
    norm_num
    rfl
  exact C6_baseline_window 2 1 (by norm_num) (by norm_num) _ _
    (by
      intro s hs
      rw [List.mem_singleton] at hs
      subst hs
      rw [hb]
      simp)
    (by
      refine List.Forall₂.cons ?_ List.Forall₂.nil
      rw [hb]
      simp)

/-- C9: the Ktrans and kep outlier thresholds are percentiles of the full
reconstructed flat volume — one entry per voxel of the spatial grid,
including the zeros written at out-of-mask voxels — not of the masked
voxels only; with a partial mask the out-of-mask zeros participate in the
percentile and can lower it, as the concrete instance shows: one masked
voxel with Ktrans 1 next to one out-of-mask voxel gives a 50th percentile
of 1/2 over the full volume, strictly below the 50th percentile 1 of the
masked entries alone. -/
theorem C9_percentile_full_volume :
    (∀ (mask : List Bool) (params : List (ℚ × ℚ × ℚ × ℚ)) (thresh : ℚ),
      pKtrans mask params thresh = percentile (KtransFlat mask params) thresh ∧
      (KtransFlat mask params).length = mask.length ∧
      pKep mask params thresh = percentile (kepFlat mask params) thresh ∧
      (kepFlat mask params).length = mask.length) ∧
    pKtrans [true, false] [(1, 1, 0, 0)] 50 = 1 / 2 ∧
    percentile (gather [true, false] (KtransFlat [true, false] [(1, 1, 0, 0)])) 50 = 1 ∧
    pKtrans [true, false] [(1, 1, 0, 0)] 50 <
      percentile (gather [true, false] (KtransFlat [true, false] [(1, 1, 0, 0)])) 50 := by
  have hkv : KtransFlat [true, false] [(1, 1, 0, 0)] = [1, 0] := by
    norm_num [KtransFlat, scatterD, clampGT, ind]
  have hfull : pKtrans [true, false] [(1, 1, 0, 0)] 50 = 1 / 2 := by
    unfold pKtrans
    rw [hkv]
    norm_num [percentile, interpAt, List.insertionSort, List.orderedInsert]
  have hmasked :
      percentile (gather [true, false] (KtransFlat [true, false] [(1, 1, 0, 0)])) 50 = 1 := by
    rw [hkv]
    norm_num [gather, percentile, interpAt, List.insertionSort, List.orderedInsert]
  refine ⟨fun mask params thresh =>
    ⟨rfl, KtransFlat_length mask params, rfl, kepFlat_length mask params⟩,
    hfull, hmasked, ?_⟩
  rw [hfull, hmasked]
  norm_num

/-- C3 counterexample: with mask [True, False], one raw Ktrans value -1
(negative raw values survive the upper-only clamp) and threshold percentile
0, the Ktrans percentile is the volume minimum -1, and the thresholding
`A[A > p] = p` overwrites the out-of-mask zero with -1: the out-of-mask
voxel of the final Ktrans volume holds -1, not 0 as the claim states. -/
theorem C3_cex :
    (PkModellingProcess.finished [true, false] [(-1, 0, 0, 0)]
        [[0]] [1] 1 0).ktrans.getD 1 0 = -1 ∧ (-1 : ℚ) ≠ 0 := by
  constructor
  · have hkv : KtransFlat [true, false] [(-1, 0, 0, 0)] = [-1, 0] := by
      norm_num [KtransFlat, scatterD, clampGT, ind]
    have hp : pKtrans [true, false] [(-1, 0, 0, 0)] 0 = -1 := by
      unfold pKtrans
      rw [hkv]
      norm_num [percentile, interpAt, List.insertionSort, List.orderedInsert]
    show ((KtransFlat [true, false] [(-1, 0, 0, 0)]).map
      (threshAt (pKtrans [true, false] [(-1, 0, 0, 0)] 0))).getD 1 0 = -1
    rw [hkv, hp]
    norm_num [threshAt]
  · norm_num

/-- C3 (amended): at every out-of-mask voxel the ve, kep, offset, vp and
fitted-curve volumes hold 0, including after the percentile thresholding of
kep (whose percentile is nonnegative because every kep entry is); the
Ktrans volume holds 0 there whenever its percentile threshold is
nonnegative, but holds the (negative) percentile value whenever the
percentile is negative. -/
theorem C3_amended (mask : List Bool) (params : List (ℚ × ℚ × ℚ × ℚ))
    (fcurve : List (List ℚ)) (baseline : List ℚ) (T : ℕ) (thresh : ℚ) (i : ℕ)
    (hi : i < mask.length) (hm : mask.getD i false = false) (ht : 0 ≤ thresh) :
    (PkModellingProcess.finished mask params fcurve baseline T thresh).ve.getD i 0 = 0 ∧
    (PkModellingProcess.finished mask params fcurve baseline T thresh).kep.getD i 0 = 0 ∧
    (PkModellingProcess.finished mask params fcurve baseline T thresh).offset.getD i 0 = 0 ∧
    (PkModellingProcess.finished mask params fcurve baseline T thresh).vp.getD i 0 = 0 ∧
    (PkModellingProcess.finished mask params fcurve baseline T
        thresh).model_curves.getD i (List.replicate T 0) = List.replicate T 0 ∧
    (0 ≤ pKtrans mask params thresh →
      (PkModellingProcess.finished mask params fcurve baseline T thresh).ktrans.getD i 0 = 0) ∧
    (pKtrans mask params thresh < 0 →
      (PkModellingProcess.finished mask params fcurve baseline T thresh).ktrans.getD i 0 =
        pKtrans mask params thresh) := by
  have hve : (veFlat mask params).getD i 0 = 0 := by
    unfold veFlat
    rw [map_getD_of_lt zeroNeg _ i (by rw [scatterD_length]; exact hi) 0 0,
      scatterD_getD_false _ _ _ i hm, zeroNeg_zero]
  have hkt : (KtransFlat mask params).getD i 0 = 0 := by
    unfold KtransFlat
    exact scatterD_getD_false _ _ _ i hm
  have hkep : (kepFlat mask params).getD i 0 = 0 := by
    have h1 : (kep1pFlat mask params).getD i 0 =
        (KtransFlat mask params).getD i 0 /
          ((veFlat mask params).getD i 0 + 1 / 1000) := by
      unfold kep1pFlat
      exact zipWith_getD_of_lt _ _ _ (by rw [KtransFlat_length, veFlat_length]) i
        (by rw [KtransFlat_length]; exact hi) 0 0 0
    have h2 : (kepFlat mask params).getD i 0 =
        clampGE (zeroNeg ((kep1pFlat mask params).getD i 0)) := by
      unfold kepFlat
      rw [map_getD_of_lt clampGE _ i
        (by rw [List.length_map, kep1pFlat_length]; exact hi) 0 0]
      rw [map_getD_of_lt zeroNeg _ i (by rw [kep1pFlat_length]; exact hi) 0 0]
    rw [h2, h1, hkt, hve]
    norm_num [zeroNeg_zero, clampGE_zero]
  have hpkep : 0 ≤ pKep mask params thresh :=
    percentile_nonneg _ thresh ht (kepFlat_mem_nonneg mask params)
  have hktr : (PkModellingProcess.finished mask params fcurve baseline T
      thresh).ktrans.getD i 0 = threshAt (pKtrans mask params thresh) 0 := by
    show ((KtransFlat mask params).map
      (threshAt (pKtrans mask params thresh))).getD i 0 = _
    rw [map_getD_of_lt (threshAt _) _ i (by rw [KtransFlat_length]; exact hi) 0 0,
      hkt]
  refine ⟨hve, ?_, ?_, ?_, ?_, ?_, ?_⟩
  · show ((kepFlat mask params).map (threshAt (pKep mask params thresh))).getD i 0 = 0
    rw [map_getD_of_lt (threshAt _) _ i (by rw [kepFlat_length]; exact hi) 0 0, hkep]
    unfold threshAt
    rw [if_neg (not_lt.mpr hpkep)]
  · exact scatterD_getD_false _ _ _ i hm
  · exact scatterD_getD_false _ _ _ i hm
  · exact scatterD_getD_false _ _ _ i hm
  · intro hp
    rw [hktr]
    unfold threshAt
    rw [if_neg (not_lt.mpr hp)]
  · intro hp
    rw [hktr]
    unfold threshAt
    rw [if_pos hp]

/-- C3 witness: the amended statement at a concrete two-voxel input with a
partial mask and threshold percentile 50, hypotheses discharged there. -/
theorem C3_witness :
    (PkModellingProcess.finished [true, false] [(1, 1, 0, 0)] [[0]] [1] 1 50).ve.getD 1 0 = 0 ∧
    (PkModellingProcess.finished [true, false] [(1, 1, 0, 0)] [[0]] [1] 1 50).kep.getD 1 0 = 0 ∧
    (PkModellingProcess.finished [true, false] [(1, 1, 0, 0)] [[0]] [1] 1 50).offset.getD 1 0 = 0 ∧
    (PkModellingProcess.finished [true, false] [(1, 1, 0, 0)] [[0]] [1] 1 50).vp.getD 1 0 = 0 ∧
    (PkModellingProcess.finished [true, false] [(1, 1, 0, 0)] [[0]] [1]
        1 50).model_curves.getD 1 (List.replicate 1 0) = List.replicate 1 0 ∧
    (0 ≤ pKtrans [true, false] [(1, 1, 0, 0)] 50 →
      (PkModellingProcess.finished [true, false] [(1, 1, 0, 0)] [[0]] [1] 1 50).ktrans.getD 1 0 = 0) ∧
    (pKtrans [true, false] [(1, 1, 0, 0)] 50 < 0 →
      (PkModellingProcess.finished [true, false] [(1, 1, 0, 0)] [[0]] [1] 1 50).ktrans.getD 1 0 =
        pKtrans [true, false] [(1, 1, 0, 0)] 50) :=
  C3_amended [true, false] [(1, 1, 0, 0)] [[0]] [1] 1 50 1 (by simp) rfl (by norm_num)
